import Mathlib

/-!
Verification of the investment-portfolio-analyzer core against its code.

Shallow embedding conventions:
* Python/numpy floats are modelled by `PFloat`: exact rationals plus the IEEE
  special values `nan`, `posInf`, `negInf`.  Ordinary arithmetic on finite
  values is modelled exactly (by `ℚ`); the special values follow IEEE-754
  (`0/0 = nan`, `x/0 = ±inf` for `x ≠ 0`, comparisons with `nan` are false).
  Numpy scalar division by zero warns and yields `inf`/`nan`; it does not
  raise, which is why the model is total.
* `sqrt` of a rational is irrational in general, so every function that uses
  `np.sqrt` / an internal square root (`std`) is parameterised by a function
  `sq : ℚ → ℚ` standing for the nonnegative square root; theorems assume only
  the facts about `sq` that they need (e.g. `sq 0 = 0`).
* pandas Series are modelled as `List PFloat` (positionally indexed); Python
  dicts as association lists `List (String × _)` in insertion order; a raised
  Python exception as `Except.error` of a `PyError`.
* The market-data collaborator (`StockDataFetcher`) is out of scope per the
  spec; its `get_current_price` is a parameter `String → Option ℚ` (`none`
  models a failed lookup) and `get_stock_info` a parameter
  `String → Option String` returning the sector field (`none` models the
  `None` returned on an exception; on success the dict always carries a
  `sector` key, so `info and 'sector' in info` degenerates to `info ≠ None`).
-/

/-- Model of a Python/numpy double: a finite rational or an IEEE special. -/
inductive PFloat where
  | val : ℚ → PFloat
  | nan : PFloat
  | posInf : PFloat
  | negInf : PFloat
deriving DecidableEq, Repr

namespace PFloat

/-- `x` is the NaN value. -/
def isNan : PFloat → Bool
  | .nan => true
  | _ => false

/-- `x` is a finite value (neither NaN nor an infinity). -/
def isFinite : PFloat → Bool
  | .val _ => true
  | _ => false

/-- IEEE addition. -/
def add : PFloat → PFloat → PFloat
  | .nan, _ => .nan
  | _, .nan => .nan
  | .posInf, .negInf => .nan
  | .negInf, .posInf => .nan
  | .posInf, _ => .posInf
  | _, .posInf => .posInf
  | .negInf, _ => .negInf
  | _, .negInf => .negInf
  | .val a, .val b => .val (a + b)

/-- IEEE subtraction. -/
def sub : PFloat → PFloat → PFloat
  | .nan, _ => .nan
  | _, .nan => .nan
  | .posInf, .posInf => .nan
  | .negInf, .negInf => .nan
  | .posInf, _ => .posInf
  | .negInf, _ => .negInf
  | .val _, .posInf => .negInf
  | .val _, .negInf => .posInf
  | .val a, .val b => .val (a - b)

/-- IEEE multiplication (`inf * 0 = nan`). -/
def mul : PFloat → PFloat → PFloat
  | .nan, _ => .nan
  | _, .nan => .nan
  | .posInf, .posInf => .posInf
  | .posInf, .negInf => .negInf
  | .negInf, .posInf => .negInf
  | .negInf, .negInf => .posInf
  | .posInf, .val b => if 0 < b then .posInf else if b < 0 then .negInf else .nan
  | .val a, .posInf => if 0 < a then .posInf else if a < 0 then .negInf else .nan
  | .negInf, .val b => if 0 < b then .negInf else if b < 0 then .posInf else .nan
  | .val a, .negInf => if 0 < a then .negInf else if a < 0 then .posInf else .nan
  | .val a, .val b => .val (a * b)

/-- IEEE division (`0/0 = nan`, `x/0 = ±inf`, `x/inf = 0`, `inf/inf = nan`). -/
def div : PFloat → PFloat → PFloat
  | .nan, _ => .nan
  | _, .nan => .nan
  | .posInf, .posInf => .nan
  | .posInf, .negInf => .nan
  | .negInf, .posInf => .nan
  | .negInf, .negInf => .nan
  | .posInf, .val b => if b < 0 then .negInf else .posInf
  | .negInf, .val b => if b < 0 then .posInf else .negInf
  | .val _, .posInf => .val 0
  | .val _, .negInf => .val 0
  | .val a, .val b =>
      if b = 0 then (if 0 < a then .posInf else if a < 0 then .negInf else .nan)
      else .val (a / b)

/-- IEEE absolute value. -/
def abs : PFloat → PFloat
  | .nan => .nan
  | .posInf => .posInf
  | .negInf => .posInf
  | .val a => .val |a|

/-- Square root, with the square root on nonnegative rationals supplied as
`sq` (see the file header); `sqrt` of a negative value or of NaN is NaN. -/
def sqrtWith (sq : ℚ → ℚ) : PFloat → PFloat
  | .nan => .nan
  | .posInf => .posInf
  | .negInf => .nan
  | .val a => if a < 0 then .nan else .val (sq a)

/-- IEEE `<` as a boolean: every comparison involving NaN is false. -/
def lt : PFloat → PFloat → Bool
  | .nan, _ => false
  | _, .nan => false
  | .negInf, .negInf => false
  | .negInf, _ => true
  | .posInf, _ => false
  | .val _, .posInf => true
  | .val _, .negInf => false
  | .val a, .val b => a < b

/-- IEEE `>` as a boolean: every comparison involving NaN is false. -/
def gt (x y : PFloat) : Bool := lt y x

/-- Total boolean order used for sorting non-NaN floats
(`numpy` sorts `-inf < finite < inf`; NaN never reaches a sort here because
`calculate_var` bails out to NaN first). -/
def ble : PFloat → PFloat → Bool
  | .nan, _ => true
  | _, .nan => true
  | .negInf, _ => true
  | _, .negInf => false
  | _, .posInf => true
  | .posInf, _ => false
  | .val a, .val b => a ≤ b

end PFloat

/-- Sum of a list of floats, as numpy/pandas computes it (starting from 0). -/
def pfSum (xs : List PFloat) : PFloat := xs.foldl PFloat.add (.val 0)

/-- pandas `Series.mean()` (skipna=True): NaN entries are dropped; the mean of
no observations is NaN. -/
def seriesMean (xs : List PFloat) : PFloat :=
  let obs := xs.filter (fun x => !x.isNan)
  if obs.isEmpty then .nan
  else (pfSum obs).div (.val obs.length)

/-- pandas `Series.std()` (skipna=True, ddof=1): sample standard deviation of
the non-NaN entries; NaN when fewer than two observations remain. -/
def seriesStd (sq : ℚ → ℚ) (xs : List PFloat) : PFloat :=
  let obs := xs.filter (fun x => !x.isNan)
  if obs.length < 2 then .nan
  else
    let m := (pfSum obs).div (.val obs.length)
    let varSum := pfSum (obs.map (fun x => (x.sub m).mul (x.sub m)))
    (varSum.div (.val ((obs.length - 1 : Nat) : ℚ))).sqrtWith sq

/-- `prices.pct_change()` on the tail of the series: entry for each price `p`
with predecessor `prev` is `p / prev - 1` (pandas computes
`self / self.shift(1) - 1`; `0/0` gives NaN, `x/0` gives `±inf`). -/
def pctAux (prev : PFloat) : List PFloat → List PFloat
  | [] => []
  | p :: rest => ((p.div prev).sub (.val 1)) :: pctAux p rest

/-- `prices.pct_change()`: the first entry has no predecessor and is NaN. -/
def pct_change (xs : List PFloat) : List PFloat :=
  match xs with
  | [] => []
  | x :: rest => .nan :: pctAux x rest

/-- `Series.dropna()`: removes exactly the NaN entries (infinities are kept). -/
def dropna (xs : List PFloat) : List PFloat := xs.filter (fun x => !x.isNan)

/-- `RiskCalculator.calculate_returns(prices)`:
`prices.pct_change().dropna()` (risk_calculator.py lines 22-32). -/
def calculate_returns (prices : List PFloat) : List PFloat :=
  dropna (pct_change prices)

/-- `RiskCalculator.calculate_volatility(returns, annualize)`
(risk_calculator.py lines 34-51): `returns.std()`, times `np.sqrt(252)` when
annualizing. -/
def calculate_volatility (sq : ℚ → ℚ) (returns : List PFloat)
    (annualize : Bool) : PFloat :=
  let volatility := seriesStd sq returns
  if annualize then volatility.mul (.val (sq 252)) else volatility

/-- `RiskCalculator.calculate_sharpe_ratio(returns, annualize)`
(risk_calculator.py lines 53-75): `(mean*252 - risk_free_rate)/(std*sqrt 252)`
when annualizing.  The division is numpy scalar division: by zero it yields
`±inf`/NaN with a warning and never raises. -/
def calculate_sharpe_ratio (sq : ℚ → ℚ) (risk_free_rate : ℚ)
    (returns : List PFloat) (annualize : Bool) : PFloat :=
  let mean_return := seriesMean returns
  let std_return := seriesStd sq returns
  let mean_return' := if annualize then mean_return.mul (.val 252) else mean_return
  let std_return' := if annualize then std_return.mul (.val (sq 252)) else std_return
  (mean_return'.sub (.val risk_free_rate)).div std_return'

/-- `RiskCalculator.assess_risk_level(sharpe_ratio, volatility)`
(risk_calculator.py lines 187-204).  The thresholds `1.0, 0.20, 0.5, 0.30`
are modelled by the exact rationals they denote. -/
def assess_risk_level (sharpe_ratio volatility : PFloat) : String :=
  if sharpe_ratio.gt (.val 1) && volatility.lt (.val (1/5)) then "Low Risk"
  else if sharpe_ratio.gt (.val (1/2)) && volatility.lt (.val (3/10)) then "Medium Risk"
  else "High Risk"

/-- Insert into a descending-sorted list (before the first strictly smaller
element).  Used to model Python's `sorted(..., reverse=True)`: any comparison
sort produces the same list of values over `ℚ`. -/
def insertDesc (x : ℚ) : List ℚ → List ℚ
  | [] => [x]
  | y :: ys => if y < x then x :: y :: ys else y :: insertDesc x ys

/-- `sorted(l, reverse=True)` for rational values. -/
def sortDesc (l : List ℚ) : List ℚ := l.foldr insertDesc []

/-- Insert into an ascending-sorted list of floats. -/
def insertAsc (x : PFloat) : List PFloat → List PFloat
  | [] => [x]
  | y :: ys => if PFloat.ble y x then y :: insertAsc x ys else x :: y :: ys

/-- `np.sort` (ascending) for floats; callers exclude NaN beforehand. -/
def sortAsc (l : List PFloat) : List PFloat := l.foldr insertAsc []

/-- First value bound to a key in a Python dict modelled as an association
list (keys are unique in every dict the analyzer builds). -/
def alookup {α : Type} (l : List (String × α)) (k : String) : Option α :=
  match l.find? (fun p => p.1 = k) with
  | some p => some p.2
  | none => none

/-- `d[k] = v` on a Python dict: overwrite in place if the key exists
(insertion position retained), else append. -/
def dictInsert {α : Type} (l : List (String × α)) (k : String) (v : α) :
    List (String × α) :=
  if l.any (fun p => p.1 = k) then l.map (fun p => if p.1 = k then (k, v) else p)
  else l ++ [(k, v)]

/-- One stock holding: `{'shares': shares, 'purchase_price': purchase_price}`
(portfolio_analyzer.py lines 35-38); `none` models Python `None`. -/
structure Holding where
  shares : ℚ
  purchase_price : Option ℚ
deriving DecidableEq, Repr

/-- One entry of the `positions` dict built by `calculate_portfolio_value`
(portfolio_analyzer.py lines 85-96).  `weight` is filled by the second loop;
in the intermediate dict the key is simply absent, modelled here as the
placeholder value `0` that the second loop overwrites. -/
structure Position where
  shares : ℚ
  current_price : ℚ
  position_value : ℚ
  purchase_price : Option ℚ
  gain_loss : Option ℚ
  gain_loss_pct : Option ℚ
  weight : ℚ
deriving DecidableEq, Repr

/-- Result dict of `calculate_portfolio_value` (called "Valuation" in the spec)
(portfolio_analyzer.py lines 98-101). -/
structure PortfolioValuation where
  total_value : ℚ
  positions : List (String × Position)
deriving DecidableEq, Repr

/-- A raised Python exception. -/
inductive PyError where
  | keyError (k : String)
  | zeroDivisionError
deriving DecidableEq, Repr

/-- Python truthiness of an optional price: `None` and `0.0` are falsy
(`if current_price:` / `if holding['purchase_price']:`). -/
def pyTruthy : Option ℚ → Bool
  | none => false
  | some q => q != 0

/-- The position dict built for one resolved holding
(portfolio_analyzer.py lines 74-92); only applied under `pyTruthy`. -/
def positionOf (get_current_price : String → Option ℚ) (th : String × Holding) :
    Position :=
  let holding := th.2
  let current_price := (get_current_price th.1).getD 0
  let position_value := current_price * holding.shares
  let gl : Option ℚ × Option ℚ :=
    match holding.purchase_price with
    | none => (none, none)
    | some pp =>
        if pp = 0 then (none, none)
        else (some ((current_price - pp) * holding.shares),
              some ((current_price / pp - 1) * 100))
  { shares := holding.shares
    current_price := current_price
    position_value := position_value
    purchase_price := holding.purchase_price
    gain_loss := gl.1
    gain_loss_pct := gl.2
    weight := 0 }

/-- Body of the first loop of `calculate_portfolio_value`
(portfolio_analyzer.py lines 71-92): skip the holding unless the fetched
price is truthy, else accumulate `total_value` and append the position. -/
def valuationStep (get_current_price : String → Option ℚ)
    (acc : ℚ × List (String × Position)) (th : String × Holding) :
    ℚ × List (String × Position) :=
  if pyTruthy (get_current_price th.1) then
    (acc.1 + ((get_current_price th.1).getD 0) * th.2.shares,
     acc.2 ++ [(th.1, positionOf get_current_price th)])
  else acc

/-- `PortfolioAnalyzer.calculate_portfolio_value`
(portfolio_analyzer.py lines 61-101).  The second loop divides each
`position_value` by `total_value`; Python raises `ZeroDivisionError` at the
first division when `total_value == 0` and `positions` is nonempty (with
empty `positions` the loop body never runs and the dict is returned). -/
def calculate_portfolio_value (holdings : List (String × Holding))
    (get_current_price : String → Option ℚ) : Except PyError PortfolioValuation :=
  let acc := holdings.foldl (valuationStep get_current_price) (0, [])
  let total_value := acc.1
  let positions := acc.2
  if positions.isEmpty then .ok { total_value := total_value, positions := positions }
  else if total_value = 0 then .error .zeroDivisionError
  else .ok { total_value := total_value
             positions := positions.map
               (fun tp => (tp.1, { tp.2 with weight := tp.2.position_value / total_value })) }

/-- Python `round` to an integer: round-half-to-even (banker's rounding). -/
def pyRoundInt (q : ℚ) : ℤ :=
  if q - ⌊q⌋ < 1/2 then ⌊q⌋
  else if 1/2 < q - ⌊q⌋ then ⌊q⌋ + 1
  else if ⌊q⌋ % 2 = 0 then ⌊q⌋ else ⌊q⌋ + 1

/-- Python `round(x, 1)`. -/
def pyRound1 (q : ℚ) : ℚ := (pyRoundInt (q * 10) : ℚ) / 10

/-- Result dict of `analyze_diversification`
(portfolio_analyzer.py lines 148-155). -/
structure DiversificationReport where
  num_holdings : Nat
  num_sectors : Nat
  sector_allocation : List (String × ℚ)
  top_position_weight : ℚ
  top_3_weight : ℚ
  diversification_score : ℚ
deriving DecidableEq, Repr

/-- `sectors[sector] += position_value` with first-insertion ordering
(portfolio_analyzer.py lines 120-123). -/
def sectorAdd (sectors : List (String × ℚ)) (sector : String) (v : ℚ) :
    List (String × ℚ) :=
  if (alookup sectors sector).isSome then
    sectors.map (fun sv => if sv.1 = sector then (sv.1, sv.2 + v) else sv)
  else sectors ++ [(sector, v)]

/-- The sector-aggregation loop of `analyze_diversification`
(portfolio_analyzer.py lines 113-123): for each held ticker with stock info,
`portfolio_value['positions'][ticker]['position_value']` is read — a
`KeyError` when the ticker's price did not resolve and it is therefore
absent from `positions`. -/
def sectorsOf (positions : List (String × Position))
    (get_stock_info : String → Option String)
    (holdings : List (String × Holding)) : Except PyError (List (String × ℚ)) :=
  holdings.foldlM
    (fun sectors th =>
      match get_stock_info th.1 with
      | none => .ok sectors
      | some sector =>
          match alookup positions th.1 with
          | none => .error (.keyError th.1)
          | some p => .ok (sectorAdd sectors sector p.position_value))
    []

/-- `PortfolioAnalyzer.analyze_diversification`
(portfolio_analyzer.py lines 103-155).  The sector-weight comprehension
divides by `total_value` and raises `ZeroDivisionError` when `sectors` is
nonempty and `total_value == 0`; the thresholds `0.40` and `0.70` are
modelled by the rationals they denote. -/
def analyze_diversification (holdings : List (String × Holding))
    (get_current_price : String → Option ℚ)
    (get_stock_info : String → Option String) :
    Except PyError DiversificationReport :=
  match calculate_portfolio_value holdings get_current_price with
  | .error e => .error e
  | .ok portfolio_value =>
    match sectorsOf portfolio_value.positions get_stock_info holdings with
    | .error e => .error e
    | .ok sectors =>
      let total_value := portfolio_value.total_value
      if total_value = 0 ∧ ¬sectors.isEmpty then .error .zeroDivisionError
      else
        let sector_weights := sectors.map (fun sv => (sv.1, sv.2 / total_value))
        let num_holdings := holdings.length
        let num_sectors := sectors.length
        let sorted_weights := sortDesc (portfolio_value.positions.map (fun tp => tp.2.weight))
        let top_position := sorted_weights.headD 0
        let top_3 := if 3 ≤ sorted_weights.length
                     then (sorted_weights.take 3).sum else sorted_weights.sum
        let base := min 10 ((num_holdings : ℚ) * (1/2) + (num_sectors : ℚ) * (3/2))
        let s1 := if top_position > 2/5 then base - 2 else base
        let s2 := if top_3 > 7/10 then s1 - 1 else s1
        let diversification_score := max 0 s2
        .ok { num_holdings := num_holdings
              num_sectors := num_sectors
              sector_allocation := sector_weights
              top_position_weight := top_position
              top_3_weight := top_3
              diversification_score := pyRound1 diversification_score }

/-- One entry of the dict returned by `get_rebalancing_recommendations`
(portfolio_analyzer.py lines 219-226). -/
structure Recommendation where
  current_weight : ℚ
  target_weight : ℚ
  difference_pct : ℚ
  dollar_difference : ℚ
  shares_to_trade : ℚ
  action : String
deriving DecidableEq, Repr

/-- `PortfolioAnalyzer.get_rebalancing_recommendations`
(portfolio_analyzer.py lines 187-228).  The loop runs over all holdings;
`current_weights.get(ticker, 0)` and `target_weights.get(ticker, 0)` default
to 0, but `portfolio_value['positions'][ticker]['current_price']` is a plain
subscript and raises `KeyError` for a holding whose price did not resolve.
`1/len(self.holdings)` sits inside a dict comprehension, so it is evaluated
only when there is at least one holding. -/
def get_rebalancing_recommendations (holdings : List (String × Holding))
    (get_current_price : String → Option ℚ)
    (target_weights? : Option (List (String × ℚ))) :
    Except PyError (List (String × Recommendation)) :=
  match calculate_portfolio_value holdings get_current_price with
  | .error e => .error e
  | .ok portfolio_value =>
    let current_weights := portfolio_value.positions.map (fun tp => (tp.1, tp.2.weight))
    let target_weights :=
      match target_weights? with
      | some tw => tw
      | none => holdings.map (fun th => (th.1, 1 / (holdings.length : ℚ)))
    let total_value := portfolio_value.total_value
    holdings.foldlM
      (fun recommendations th =>
        let ticker := th.1
        let current_weight := (alookup current_weights ticker).getD 0
        let target_weight := (alookup target_weights ticker).getD 0
        let difference := target_weight - current_weight
        let dollar_difference := difference * total_value
        match alookup portfolio_value.positions ticker with
        | none => .error (.keyError ticker)
        | some p =>
          let current_price := p.current_price
          let shares_to_trade := dollar_difference / current_price
          let action := if shares_to_trade > 0 then "BUY"
                        else if shares_to_trade < 0 then "SELL" else "HOLD"
          .ok (recommendations ++
               [(ticker, { current_weight := current_weight
                           target_weight := target_weight
                           difference_pct := difference
                           dollar_difference := dollar_difference
                           shares_to_trade := shares_to_trade
                           action := action })]))
      []

/-- `np.percentile(xs, p)` with the default linear interpolation: value at
fractional rank `(n-1)*p/100` of the ascending sort.  A NaN anywhere in the
input makes the result NaN; numpy raises on an empty input, a corner modelled
here as NaN (no claim depends on it). -/
def percentile (xs : List PFloat) (p : ℚ) : PFloat :=
  if xs.any (fun x => x.isNan) then .nan
  else if xs.isEmpty then .nan
  else
    let sorted := sortAsc xs
    let pos : ℚ := ((xs.length : ℚ) - 1) * p / 100
    let i : ℕ := Int.toNat ⌊pos⌋
    let frac : ℚ := pos - (i : ℚ)
    let lo := sorted.getD i (.val 0)
    let hi := sorted.getD (i + 1) lo
    lo.add ((hi.sub lo).mul (.val frac))

/-- `RiskCalculator.calculate_var(returns, confidence_level)`
(risk_calculator.py lines 105-119): `abs(np.percentile(returns, (1-c)*100))`. -/
def calculate_var (returns : List PFloat) (confidence_level : ℚ) : PFloat :=
  (percentile returns ((1 - confidence_level) * 100)).abs

/-- `Series.cumprod()` with pandas' default skipna: a NaN cell stays NaN and
does not poison the running product. -/
def pfCumprodAux (acc : PFloat) : List PFloat → List PFloat
  | [] => []
  | x :: rest =>
      if x.isNan then .nan :: pfCumprodAux acc rest
      else
        let acc' := acc.mul x
        acc' :: pfCumprodAux acc' rest

/-- `Series.cumprod()`. -/
def pfCumprod (xs : List PFloat) : List PFloat := pfCumprodAux (.val 1) xs

/-- `Series.expanding().max()`: running maximum of the non-NaN prefix; NaN
until the first observation. -/
def pfExpandingMaxAux (best : PFloat) : List PFloat → List PFloat
  | [] => []
  | x :: rest =>
      if x.isNan then best :: pfExpandingMaxAux best rest
      else
        let b := if best.isNan then x else if PFloat.ble best x then x else best
        b :: pfExpandingMaxAux b rest

/-- `Series.expanding().max()`. -/
def pfExpandingMax (xs : List PFloat) : List PFloat := pfExpandingMaxAux .nan xs

/-- `Series.min()` (skipna): NaN only when there is no non-NaN entry. -/
def pfMin (xs : List PFloat) : PFloat :=
  match xs.filter (fun x => !x.isNan) with
  | [] => .nan
  | y :: rest => rest.foldl (fun a b => if PFloat.ble a b then a else b) y

/-- `RiskCalculator.calculate_max_drawdown(prices)`
(risk_calculator.py lines 121-142). -/
def calculate_max_drawdown (prices : List PFloat) : PFloat :=
  let cumulative := pfCumprod ((calculate_returns prices).map (fun r => (PFloat.val 1).add r))
  let running_max := pfExpandingMax cumulative
  let drawdown := List.zipWith (fun c m => (c.sub m).div m) cumulative running_max
  (pfMin drawdown).abs

/-- The metrics dict built by `calculate_portfolio_metrics`
(risk_calculator.py lines 175-183). -/
structure PortfolioMetrics where
  annual_return : PFloat
  volatility : PFloat
  sharpe_ratio : PFloat
  var_95 : PFloat
  max_drawdown : PFloat
deriving DecidableEq, Repr

/-- The weighted-sum loop of `calculate_portfolio_metrics`
(risk_calculator.py lines 170-172): `sum(returns_df[ticker] * weights[ticker]
for ticker in tickers ...)`. `weights[ticker]` is a plain subscript and
raises `KeyError` when the ticker is missing from the weights dict.  The
`DataFrame` made from the per-ticker return series is modelled positionally:
rows up to the longest series, shorter series padded with NaN (all series of
one portfolio share the provider's trading-day index). -/
def weightedReturns (returns_data : List (String × List PFloat))
    (weights : List (String × ℚ)) (nrows : Nat) :
    Except PyError (List PFloat) :=
  returns_data.foldlM
    (fun acc rd =>
      match alookup weights rd.1 with
      | none => .error (.keyError rd.1)
      | some w =>
          .ok (List.zipWith PFloat.add acc
            ((List.range nrows).map
              (fun i => match rd.2[i]? with
                        | some r => r.mul (.val w)
                        | none => .nan))))
    (List.replicate nrows (PFloat.val 0))

/-- `RiskCalculator.calculate_portfolio_metrics(portfolio_data, weights)`
(risk_calculator.py lines 144-185).  `portfolio_data` maps each ticker to its
Close price series (every frame returned by the fetcher has a `Close` column,
so the `if 'Close' in data.columns` guard always passes). -/
def calculate_portfolio_metrics (sq : ℚ → ℚ) (risk_free_rate : ℚ)
    (portfolio_data : List (String × List PFloat))
    (weights? : Option (List (String × ℚ))) : Except PyError PortfolioMetrics :=
  let tickers := portfolio_data.map (fun td => td.1)
  let weights :=
    match weights? with
    | some w => w
    | none => tickers.map (fun t => (t, 1 / (tickers.length : ℚ)))
  let returns_data := portfolio_data.map (fun td => (td.1, calculate_returns td.2))
  let nrows := returns_data.foldl (fun m rd => max m rd.2.length) 0
  match weightedReturns returns_data weights nrows with
  | .error e => .error e
  | .ok weighted_returns =>
      .ok { annual_return := (seriesMean weighted_returns).mul (.val 252)
            volatility := calculate_volatility sq weighted_returns true
            sharpe_ratio := calculate_sharpe_ratio sq risk_free_rate weighted_returns true
            var_95 := calculate_var weighted_returns (95/100)
            max_drawdown := calculate_max_drawdown
              (pfCumprod (weighted_returns.map (fun r => (PFloat.val 1).add r))) }

/-- The dict returned by `calculate_risk_metrics`: the portfolio metrics plus
the `risk_level` key added at portfolio_analyzer.py lines 180-183. -/
structure RiskMetrics extends PortfolioMetrics where
  risk_level : String
deriving DecidableEq, Repr

/-- The mutable state of a `PortfolioAnalyzer` instance
(portfolio_analyzer.py lines 14-24): the risk-free rate handed to the
calculator, the holdings dict and the loaded historical data. -/
structure PortfolioAnalyzer where
  risk_free_rate : ℚ
  holdings : List (String × Holding)
  portfolio_data : List (String × List PFloat)
deriving Repr

/-- `PortfolioAnalyzer.add_holding(ticker, shares, purchase_price)`
(portfolio_analyzer.py lines 26-38): the one method that writes to
`self.holdings`. -/
def PortfolioAnalyzer.add_holding (st : PortfolioAnalyzer) (ticker : String)
    (shares : ℚ) (purchase_price : Option ℚ) : PortfolioAnalyzer :=
  let h : Holding := { shares := shares, purchase_price := purchase_price }
  { st with holdings := dictInsert st.holdings ticker h }

/-- `calculate_portfolio_value` as a method: reads `self.holdings`, assigns
to no attribute, so the state after the call is the state before it. -/
def calculate_portfolio_value_st (st : PortfolioAnalyzer)
    (get_current_price : String → Option ℚ) :
    Except PyError PortfolioValuation × PortfolioAnalyzer :=
  (calculate_portfolio_value st.holdings get_current_price, st)

/-- `analyze_diversification` as a method: no attribute assignment. -/
def analyze_diversification_st (st : PortfolioAnalyzer)
    (get_current_price : String → Option ℚ)
    (get_stock_info : String → Option String) :
    Except PyError DiversificationReport × PortfolioAnalyzer :=
  (analyze_diversification st.holdings get_current_price get_stock_info, st)

/-- `get_rebalancing_recommendations` as a method: no attribute assignment. -/
def get_rebalancing_recommendations_st (st : PortfolioAnalyzer)
    (get_current_price : String → Option ℚ)
    (target_weights? : Option (List (String × ℚ))) :
    Except PyError (List (String × Recommendation)) × PortfolioAnalyzer :=
  (get_rebalancing_recommendations st.holdings get_current_price target_weights?, st)

/-- `PortfolioAnalyzer.calculate_risk_metrics`
(portfolio_analyzer.py lines 157-185): returns `None` when no historical
data is loaded; otherwise recomputes the valuation, extracts the weights and
delegates to the calculator, then adds `risk_level`.  No attribute
assignment. -/
def calculate_risk_metrics_st (sq : ℚ → ℚ) (st : PortfolioAnalyzer)
    (get_current_price : String → Option ℚ) :
    Except PyError (Option RiskMetrics) × PortfolioAnalyzer :=
  (if st.portfolio_data.isEmpty then .ok none
   else
     match calculate_portfolio_value st.holdings get_current_price with
     | .error e => .error e
     | .ok portfolio_value =>
       let weights := portfolio_value.positions.map (fun tp => (tp.1, tp.2.weight))
       match calculate_portfolio_metrics sq st.risk_free_rate st.portfolio_data
               (some weights) with
       | .error e => .error e
       | .ok metrics =>
           .ok (some { toPortfolioMetrics := metrics
                       risk_level := assess_risk_level metrics.sharpe_ratio
                         metrics.volatility }), st)

/-- The dict returned by `generate_portfolio_report`
(portfolio_analyzer.py lines 237-241). -/
structure PortfolioReport where
  valuation : PortfolioValuation
  diversification : DiversificationReport
  risk_metrics : Option RiskMetrics
deriving Repr

/-- `PortfolioAnalyzer.generate_portfolio_report`
(portfolio_analyzer.py lines 230-243): evaluates the three sub-reports in
order; the first exception raised propagates.  No attribute assignment. -/
def generate_portfolio_report_st (sq : ℚ → ℚ) (st : PortfolioAnalyzer)
    (get_current_price : String → Option ℚ)
    (get_stock_info : String → Option String) :
    Except PyError PortfolioReport × PortfolioAnalyzer :=
  let v := calculate_portfolio_value_st st get_current_price
  let d := analyze_diversification_st v.2 get_current_price get_stock_info
  let m := calculate_risk_metrics_st sq d.2 get_current_price
  (match v.1, d.1, m.1 with
   | .error e, _, _ => .error e
   | _, .error e, _ => .error e
   | _, _, .error e => .error e
   | .ok vr, .ok dr, .ok mr =>
       .ok { valuation := vr, diversification := dr, risk_metrics := mr },
   m.2)

/-- Exact-arithmetic view of the tail of `pct_change` over nonzero prices:
the return against the previous price, then recurse. -/
def qReturns (prev : ℚ) : List ℚ → List ℚ
  | [] => []
  | p :: rest => (p / prev - 1) :: qReturns p rest

/-- `pct_change` over finite nonzero prices is `qReturns`, entrywise. -/
theorem pctAux_map_val (c : ℚ) (l : List ℚ) (hc : c ≠ 0)
    (hl : ∀ p ∈ l, p ≠ 0) :
    pctAux (.val c) (l.map .val) = (qReturns c l).map .val := by
  induction l generalizing c with
  | nil => rfl
  | cons p rest ih =>
      have hp : p ≠ 0 := hl p (by simp)
      have hrest : ∀ q ∈ rest, q ≠ 0 := fun q hq => hl q (by simp [hq])
      simp only [List.map_cons, pctAux, qReturns, PFloat.div, PFloat.sub,
        if_neg hc, ih p hp hrest]

/-- `qReturns` is one shorter than nothing: it has the length of its list
argument. -/
theorem qReturns_length (c : ℚ) (l : List ℚ) :
    (qReturns c l).length = l.length := by
  induction l generalizing c with
  | nil => rfl
  | cons p rest ih => simp [qReturns, ih]

/-- Entry `j` of `qReturns c l` is the price at position `j+1` of `c :: l`
divided by its predecessor, minus 1. -/
theorem qReturns_getElem (c : ℚ) (l : List ℚ) (j : ℕ) :
    (qReturns c l)[j]? =
      Option.map₂ (fun a b => a / b - 1) (c :: l)[j + 1]? (c :: l)[j]? := by
  induction l generalizing c j with
  | nil => cases j <;> simp [qReturns, Option.map₂]
  | cons p rest ih =>
      cases j with
      | zero => simp [qReturns, Option.map₂]
      | succ j => simpa [qReturns] using ih p j

/-- All images of `PFloat.val` survive `dropna`. -/
theorem dropna_map_val (l : List ℚ) :
    dropna (l.map PFloat.val) = l.map PFloat.val := by
  unfold dropna
  rw [List.filter_eq_self]
  intro a ha
  obtain ⟨q, _, rfl⟩ := List.mem_map.mp ha
  rfl

/-- Over a series of nonzero finite prices, `calculate_returns` is exactly
the rational return series `qReturns`. -/
theorem calculate_returns_map_val (c : ℚ) (l : List ℚ) (hc : c ≠ 0)
    (hl : ∀ p ∈ l, p ≠ 0) :
    calculate_returns ((c :: l).map PFloat.val) = (qReturns c l).map PFloat.val := by
  unfold calculate_returns
  simp only [List.map_cons, pct_change, pctAux_map_val c l hc hl, dropna,
    List.filter_cons]
  have : (!PFloat.isNan .nan) = false := rfl
  rw [this]
  simp only [Bool.false_eq_true, if_false]
  exact dropna_map_val (qReturns c l)

/-- C3 (amended): for every price series of length at least 2 all of whose
prices are nonzero, `calculate_returns` has length `len(prices) - 1` and its
entry at position `j` is exactly `prices[j+1]/prices[j] - 1`.  (The nonzero
hypothesis is forced by the counterexample `claim_C3_counterexample`: a
`0/0` step produces a NaN that `dropna` removes, shortening the result.) -/
theorem claim_C3 (prices : List ℚ) (h2 : 2 ≤ prices.length)
    (hnz : ∀ p ∈ prices, p ≠ 0) :
    (calculate_returns (prices.map PFloat.val)).length = prices.length - 1 ∧
    ∀ (j : ℕ) (hj : j + 1 < prices.length),
      (calculate_returns (prices.map PFloat.val))[j]? =
        some (PFloat.val (prices[j + 1] / prices[j] - 1)) := by
  obtain ⟨c, l, rfl⟩ : ∃ c l, prices = c :: l := by
    cases prices with
    | nil => simp at h2
    | cons c l => exact ⟨c, l, rfl⟩
  have hc : c ≠ 0 := hnz c (by simp)
  have hl : ∀ p ∈ l, p ≠ 0 := fun p hp => hnz p (by simp [hp])
  have key := calculate_returns_map_val c l hc hl
  constructor
  · rw [key]
    simp [qReturns_length]
  · intro j hj
    have hj' : j < (c :: l).length := by
      simp only [List.length_cons] at hj ⊢
      omega
    rw [key, List.getElem?_map, qReturns_getElem,
      List.getElem?_eq_getElem hj, List.getElem?_eq_getElem hj']
    rfl

/-- C3 (counterexample): on the two-observation price series `[0, 0]` the
code returns an empty series — pandas turns the `0/0` step into NaN and
`dropna` removes it — so the length is 0, not `len(prices) - 1 = 1` as the
claim states for every series of length ≥ 2. -/
theorem claim_C3_counterexample :
    ¬ ((calculate_returns [PFloat.val 0, PFloat.val 0]).length
        = [PFloat.val 0, PFloat.val 0].length - 1) := by
  decide

/-- C3 (witness): the amended theorem applied to the concrete series
`[1, 2, 4]`. -/
theorem claim_C3_witness :
    (calculate_returns ([1, 2, 4].map PFloat.val)).length = 2 ∧
    (calculate_returns ([(1 : ℚ), 2, 4].map PFloat.val))[1]? =
      some (PFloat.val ((4 : ℚ) / 2 - 1)) := by
  have h := claim_C3 [1, 2, 4] (by decide) (by decide)
  exact ⟨h.1, h.2 1 (by decide)⟩

/-- C4 (amended): for every price series with fewer than two observations,
`calculate_returns` silently returns the empty series: the single
`pct_change` entry (if any) is NaN and is dropped.  No error of any kind is
raised (the function is total); no `InsufficientData` check exists in
risk_calculator.py. -/
theorem claim_C4 (prices : List PFloat) (h : prices.length < 2) :
    calculate_returns prices = [] := by
  match prices with
  | [] => rfl
  | [x] => rfl
  | x :: y :: rest => simp at h; omega

/-- C4 (counterexample): on the one-observation series `[5]` the code
returns the empty series with no error, where the claim demands a propagated
`InsufficientData` failure. -/
theorem claim_C4_counterexample : calculate_returns [PFloat.val 5] = [] := rfl

/-- C4 (witness): the amended theorem applied to the concrete series `[5]`. -/
theorem claim_C4_witness :
    [PFloat.val 5].length < 2 ∧ calculate_returns [PFloat.val 5] = [] :=
  ⟨by decide, claim_C4 [PFloat.val 5] (by decide)⟩

/-- C8: `assess_risk_level` is a total function into the three risk labels:
for every pair of float inputs, including NaN, it returns exactly one of
"Low Risk", "Medium Risk", "High Risk" (totality of the embedding mirrors
that the Python body is a pure conditional and cannot raise); whenever
neither guard holds — all comparisons with NaN are false, so in particular
whenever either input is NaN — it returns "High Risk". -/
theorem claim_C8 (s v : PFloat) :
    (assess_risk_level s v = "Low Risk" ∨ assess_risk_level s v = "Medium Risk"
      ∨ assess_risk_level s v = "High Risk")
    ∧ ((s.gt (.val 1) && v.lt (.val (1/5))) = false →
       (s.gt (.val (1/2)) && v.lt (.val (3/10))) = false →
       assess_risk_level s v = "High Risk")
    ∧ (s = .nan ∨ v = .nan → assess_risk_level s v = "High Risk") := by
  refine ⟨?_, ?_, ?_⟩
  · unfold assess_risk_level
    split_ifs <;> simp
  · intro h1 h2
    unfold assess_risk_level
    rw [h1, h2]
    rfl
  · intro h
    have h1 : (s.gt (.val 1) && v.lt (.val (1/5))) = false := by
      rcases h with h | h <;> subst h
      · rfl
      · cases PFloat.gt s (.val 1) <;> rfl
    have h2 : (s.gt (.val (1/2)) && v.lt (.val (3/10))) = false := by
      rcases h with h | h <;> subst h
      · rfl
      · cases PFloat.gt s (.val (1/2)) <;> rfl
    unfold assess_risk_level
    rw [h1, h2]
    rfl

/-- C8 (witness): the theorem applied at the concrete pair (NaN, NaN). -/
theorem claim_C8_witness : assess_risk_level .nan .nan = "High Risk" :=
  (claim_C8 .nan .nan).2.2 (Or.inl rfl)

/-- C10: every analysis operation — `calculate_portfolio_value`,
`analyze_diversification`, `get_rebalancing_recommendations`,
`generate_portfolio_report` — leaves `self.holdings` unchanged (none of
their bodies assigns to any attribute, which the state-passing embedding
makes explicit), and `add_holding` is the only operation that modifies
the holdings: it performs exactly the dict upsert
`self.holdings[ticker] = {'shares': shares, 'purchase_price': pp}`. -/
theorem claim_C10 (st : PortfolioAnalyzer) (gp : String → Option ℚ)
    (gi : String → Option String) (sq : ℚ → ℚ)
    (tw : Option (List (String × ℚ))) (ticker : String) (shares : ℚ)
    (pp : Option ℚ) :
    (calculate_portfolio_value_st st gp).2.holdings = st.holdings
    ∧ (analyze_diversification_st st gp gi).2.holdings = st.holdings
    ∧ (get_rebalancing_recommendations_st st gp tw).2.holdings = st.holdings
    ∧ (generate_portfolio_report_st sq st gp gi).2.holdings = st.holdings
    ∧ (st.add_holding ticker shares pp).holdings
        = dictInsert st.holdings ticker
            { shares := shares, purchase_price := pp } :=
  ⟨rfl, rfl, rfl, rfl, rfl⟩

/-- The first loop of `calculate_portfolio_value`, characterised: it adds to
the accumulator the value of every holding whose price is truthy, in order,
and appends their position dicts. -/
theorem valuation_foldl (gp : String → Option ℚ)
    (holdings : List (String × Holding)) (t0 : ℚ)
    (p0 : List (String × Position)) :
    holdings.foldl (valuationStep gp) (t0, p0)
    = (t0 + ((holdings.filter (fun th => pyTruthy (gp th.1))).map
          (fun th => ((gp th.1).getD 0) * th.2.shares)).sum,
       p0 ++ (holdings.filter (fun th => pyTruthy (gp th.1))).map
          (fun th => (th.1, positionOf gp th))) := by
  induction holdings generalizing t0 p0 with
  | nil => simp
  | cons th rest ih =>
      simp only [List.foldl_cons, valuationStep, List.filter_cons]
      by_cases h : pyTruthy (gp th.1) = true
      · rw [if_pos h, if_pos h, ih]
        simp [add_assoc]
      · rw [if_neg h, if_neg h, ih]

/-- Sum of a list divided elementwise. -/
theorem sum_map_div (l : List ℚ) (c : ℚ) :
    (l.map (fun x => x / c)).sum = l.sum / c := by
  induction l with
  | nil => simp
  | cons x xs ih => simp [ih, add_div]

/-- C2 (amended): for every holdings set in which no holding's current price
is truthy (no price resolves; this includes the empty holdings set),
`calculate_portfolio_value` returns the valuation `{'total_value': 0,
'positions': {}}` and raises nothing: the weight loop runs over the empty
positions dict, so the division by `total_value` never executes.  (No
`EmptyPortfolio` error exists anywhere in the code; the claim's failure mode
is refuted by `claim_C2_counterexample`.) -/
theorem claim_C2 (holdings : List (String × Holding))
    (gp : String → Option ℚ)
    (hfail : ∀ th ∈ holdings, pyTruthy (gp th.1) = false) :
    calculate_portfolio_value holdings gp
      = .ok { total_value := 0, positions := [] } := by
  have hfil : holdings.filter (fun th => pyTruthy (gp th.1)) = [] := by
    rw [List.filter_eq_nil_iff]
    intro th hth
    simp [hfail th hth]
  unfold calculate_portfolio_value
  rw [valuation_foldl]
  simp [hfil]

/-- C2 (counterexample): a portfolio whose only holding has no resolvable
price makes `calculate_portfolio_value` return a valuation result with
`total_value = 0` and empty positions — it does not fail with any error. -/
theorem claim_C2_counterexample :
    calculate_portfolio_value
        [("AAPL", { shares := 10, purchase_price := none })] (fun _ => none)
      = .ok { total_value := 0, positions := [] } := rfl

/-- C2 (witness): the amended theorem applied to the empty holdings set. -/
theorem claim_C2_witness :
    calculate_portfolio_value [] (fun _ => none)
      = .ok { total_value := 0, positions := [] } :=
  claim_C2 [] (fun _ => none) (by simp)

/-- C5: whenever at least one holding's price is truthy, all shares are
positive and all resolved prices nonnegative, `calculate_portfolio_value`
succeeds; the weights over its positions sum to exactly 1; a ticker whose
price is not truthy appears nowhere in the positions dict; the total (the
denominator of every weight) is the sum over exactly the resolved holdings;
and every weight is that position's value over the total. -/
theorem claim_C5 (holdings : List (String × Holding)) (gp : String → Option ℚ)
    (hsh : ∀ th ∈ holdings, 0 < th.2.shares)
    (hpr : ∀ t q, gp t = some q → 0 ≤ q)
    (hres : ∃ th ∈ holdings, pyTruthy (gp th.1) = true) :
    ∃ v, calculate_portfolio_value holdings gp = .ok v
      ∧ (v.positions.map (fun tp => tp.2.weight)).sum = 1
      ∧ (∀ t, pyTruthy (gp t) = false → alookup v.positions t = none)
      ∧ v.total_value
          = ((holdings.filter (fun th => pyTruthy (gp th.1))).map
              (fun th => ((gp th.1).getD 0) * th.2.shares)).sum
      ∧ (∀ tp ∈ v.positions,
          tp.2.weight = tp.2.position_value / v.total_value) := by
  classical
  set R := holdings.filter (fun th => pyTruthy (gp th.1)) with hR
  set vals := R.map (fun th => ((gp th.1).getD 0) * th.2.shares) with hvals
  set S := vals.sum with hS
  set P := R.map (fun th => (th.1, positionOf gp th)) with hP
  have hmemR : ∀ th ∈ R, th ∈ holdings ∧ pyTruthy (gp th.1) = true := by
    intro th hth
    have := List.mem_filter.mp hth
    exact ⟨this.1, this.2⟩
  have hpos : ∀ x ∈ vals, 0 < x := by
    intro x hx
    obtain ⟨th, hthR, rfl⟩ := List.mem_map.mp hx
    obtain ⟨hmem, htr⟩ := hmemR th hthR
    cases hgp : gp th.1 with
    | none => rw [hgp] at htr; simp [pyTruthy] at htr
    | some q =>
        rw [hgp] at htr
        have hq0 : q ≠ 0 := by simpa [pyTruthy] using htr
        have hq : 0 < q := lt_of_le_of_ne (hpr th.1 q hgp) (Ne.symm hq0)
        exact mul_pos hq (hsh th hmem)
  have hRne : R ≠ [] := by
    obtain ⟨th, hth, htr⟩ := hres
    exact List.ne_nil_of_mem (List.mem_filter.mpr ⟨hth, htr⟩)
  have hvalsne : vals ≠ [] := by
    rw [hvals]
    simpa using hRne
  have hSpos : 0 < S := List.sum_pos vals hpos hvalsne
  have hPne : P ≠ [] := by
    rw [hP]
    simpa using hRne
  have hok : calculate_portfolio_value holdings gp
      = .ok { total_value := S
              positions := P.map (fun tp =>
                (tp.1, { tp.2 with weight := tp.2.position_value / S })) } := by
    unfold calculate_portfolio_value
    rw [valuation_foldl]
    simp only [zero_add, List.nil_append, ← hR, ← hvals, ← hS, ← hP]
    rw [if_neg (by simpa [List.isEmpty_iff] using hPne),
      if_neg (by exact hSpos.ne')]
  refine ⟨_, hok, ?_, ?_, rfl, ?_⟩
  · rw [List.map_map]
    have : ((fun tp : String × Position => tp.2.weight) ∘ fun tp =>
        (tp.1, { tp.2 with weight := tp.2.position_value / S }))
        = fun tp : String × Position => tp.2.position_value / S := rfl
    rw [this, hP, List.map_map]
    have : ((fun tp : String × Position => tp.2.position_value / S) ∘ fun th =>
        (th.1, positionOf gp th))
        = fun th : String × Holding => ((gp th.1).getD 0) * th.2.shares / S := rfl
    rw [this]
    have : (fun th : String × Holding => ((gp th.1).getD 0) * th.2.shares / S)
        = (fun x => x / S) ∘ (fun th : String × Holding =>
            ((gp th.1).getD 0) * th.2.shares) := rfl
    rw [this, ← List.map_map, ← hvals, sum_map_div, ← hS, div_self hSpos.ne']
  · intro t hfalse
    unfold alookup
    rw [List.find?_eq_none.mpr]
    intro x hx
    obtain ⟨y, hy, rfl⟩ := List.mem_map.mp hx
    obtain ⟨th, hthR, rfl⟩ := List.mem_map.mp hy
    obtain ⟨_, htr⟩ := hmemR th hthR
    simp only [decide_eq_true_eq]
    intro heq
    rw [heq] at htr
    rw [htr] at hfalse
    exact Bool.noConfusion hfalse
  · intro tp htp
    obtain ⟨y, hy, rfl⟩ := List.mem_map.mp htp
    rfl

/-- C5 (witness): the theorem applied to a concrete two-holding portfolio in
which every price resolves. -/
theorem claim_C5_witness :
    ∃ v, calculate_portfolio_value
        [("A", { shares := 2, purchase_price := none }),
         ("B", { shares := 3, purchase_price := some 1 })] (fun _ => some 5)
      = .ok v ∧ (v.positions.map (fun tp => tp.2.weight)).sum = 1 := by
  obtain ⟨v, hok, hsum, -, -, -⟩ :=
    claim_C5
      [("A", { shares := 2, purchase_price := none }),
       ("B", { shares := 3, purchase_price := some 1 })] (fun _ => some 5)
      (by intro th hth; fin_cases hth <;> norm_num)
      (by intro t q h; simp only [Option.some.injEq] at h; subst h; norm_num)
      ⟨("A", { shares := 2, purchase_price := none }), by simp, by decide⟩
  exact ⟨v, hok, hsum⟩

/-- Replacing one ticker's fetched price by the other falsy variant (a
resolved `0.0` versus `None`) changes nothing in the first valuation loop. -/
theorem valuationStep_price_congr (gp gp' : String → Option ℚ)
    (th : String × Holding) (acc : ℚ × List (String × Position))
    (h : gp th.1 = gp' th.1) :
    valuationStep gp acc th = valuationStep gp' acc th := by
  unfold valuationStep positionOf
  rw [h]

/-- C9: truthiness, not presence, drives both optional fields of a position.
First conjunct: a fetched current price of exactly `0.0` makes
`calculate_portfolio_value` behave identically to an unresolved (`None`)
price — the whole valuation is unchanged if the `some 0` is replaced by
`none`, so the ticker is excluded from positions and total alike.  Second
conjunct: a purchase price of exactly `0.0` yields `gain_loss = None` and
`gain_loss_pct = None`, exactly as an absent purchase price does; the
position differs from the absent-purchase-price one only in the stored
`purchase_price` field itself. -/
theorem claim_C9 :
    (∀ (holdings : List (String × Holding)) (gp : String → Option ℚ)
       (t : String), gp t = some 0 →
       calculate_portfolio_value holdings gp
         = calculate_portfolio_value holdings
             (fun s => if s = t then none else gp s))
    ∧ (∀ (gp : String → Option ℚ) (th : String × Holding),
        th.2.purchase_price = some 0 →
        (positionOf gp th).gain_loss = none
        ∧ (positionOf gp th).gain_loss_pct = none
        ∧ positionOf gp th
            = { positionOf gp (th.1, { shares := th.2.shares, purchase_price := none })
                  with purchase_price := some 0 }) := by
  constructor
  · intro holdings gp t ht
    have hcong : ∀ (acc : ℚ × List (String × Position)) (th : String × Holding),
        valuationStep gp acc th
          = valuationStep (fun s => if s = t then none else gp s) acc th := by
      intro acc th
      by_cases hth : th.1 = t
      · unfold valuationStep positionOf
        rw [hth, ht]
        simp [pyTruthy]
      · exact valuationStep_price_congr _ _ th acc (by simp [hth])
    have hfun : valuationStep gp
        = valuationStep (fun s => if s = t then none else gp s) :=
      funext fun acc => funext fun th => hcong acc th
    unfold calculate_portfolio_value
    rw [hfun]
  · intro gp th hpp
    obtain ⟨t, sh, ppv⟩ := th
    have hpp' : ppv = some 0 := hpp
    subst hpp'
    refine ⟨?_, ?_, ?_⟩ <;> simp [positionOf]

/-- C9 (witness): the theorem applied at a concrete fetched price of `0.0`
(equivalent to an unresolved price) and at a concrete purchase price of
`0.0` (gain/loss stays absent). -/
theorem claim_C9_witness :
    calculate_portfolio_value [("Z", { shares := 1, purchase_price := none })]
        (fun s => if s = "Z" then some 0 else some 5)
      = calculate_portfolio_value [("Z", { shares := 1, purchase_price := none })]
          (fun s => if s = "Z" then none
                    else (fun s' => if s' = "Z" then some 0 else some 5) s)
    ∧ (positionOf (fun _ => some 5)
        ("B", { shares := 3, purchase_price := some 0 })).gain_loss = none :=
  ⟨claim_C9.1 [("Z", { shares := 1, purchase_price := none })]
      (fun s => if s = "Z" then some 0 else some 5) "Z" (by simp),
   (claim_C9.2 (fun _ => some 5)
      ("B", { shares := 3, purchase_price := some 0 }) rfl).1⟩

/-- A constant list of finite values has no NaN to drop. -/
theorem filter_not_nan_replicate (k : ℕ) (q : ℚ) :
    (List.replicate k (PFloat.val q)).filter (fun x => !x.isNan)
      = List.replicate k (.val q) := by
  rw [List.filter_eq_self]
  intro a ha
  rw [List.eq_of_mem_replicate ha]
  rfl

/-- Folding IEEE addition over zeros changes nothing. -/
theorem pf_foldl_add_zeros (k : ℕ) (a : ℚ) :
    List.foldl PFloat.add (.val a) (List.replicate k (.val 0)) = .val a := by
  induction k generalizing a with
  | zero => rfl
  | succ k ih =>
      rw [List.replicate_succ, List.foldl_cons]
      show List.foldl PFloat.add (.val (a + 0)) (List.replicate k (.val 0)) = _
      rw [add_zero, ih]

/-- pandas sample std of `k ≥ 2` constant zero observations is `sqrt 0`. -/
theorem seriesStd_replicate_zero (sq : ℚ → ℚ) (k : ℕ) (h2 : 2 ≤ k) :
    seriesStd sq (List.replicate k (PFloat.val 0)) = .val (sq 0) := by
  unfold seriesStd
  simp only [filter_not_nan_replicate, List.length_replicate]
  rw [if_neg (by omega)]
  have hk : ((k : ℚ)) ≠ 0 := Nat.cast_ne_zero.mpr (by omega)
  have hsum : pfSum (List.replicate k (PFloat.val 0)) = .val 0 :=
    pf_foldl_add_zeros k 0
  have hm : (pfSum (List.replicate k (PFloat.val 0))).div
      (.val ((List.replicate k (PFloat.val 0)).length : ℚ)) = .val 0 := by
    rw [hsum, List.length_replicate]
    show (if (k : ℚ) = 0 then _ else PFloat.val ((0 : ℚ) / (k : ℚ))) = _
    rw [if_neg hk, zero_div]
  rw [List.length_replicate] at hm
  rw [hm, List.map_replicate]
  have hdev : ((PFloat.val 0).sub (.val 0)).mul ((PFloat.val 0).sub (.val 0))
      = .val 0 := by
    show PFloat.val ((0 - 0) * (0 - 0)) = _
    norm_num
  rw [hdev, hsum]
  have hk1 : (((k - 1 : ℕ)) : ℚ) ≠ 0 := Nat.cast_ne_zero.mpr (by omega)
  show PFloat.sqrtWith sq ((PFloat.val 0).div (.val ((k - 1 : ℕ) : ℚ))) = _
  rw [show (PFloat.val 0).div (.val ((k - 1 : ℕ) : ℚ))
      = if ((k - 1 : ℕ) : ℚ) = 0 then (if (0:ℚ) < 0 then PFloat.posInf
          else if (0:ℚ) < 0 then PFloat.negInf else PFloat.nan)
        else PFloat.val ((0 : ℚ) / ((k - 1 : ℕ) : ℚ)) from rfl]
  rw [if_neg hk1, zero_div]
  show (if (0 : ℚ) < 0 then PFloat.nan else PFloat.val (sq 0)) = _
  rw [if_neg (by norm_num)]

/-- `pct_change` of a constant series is constantly `c/c - 1`. -/
theorem pctAux_replicate (c : ℚ) (m : ℕ) :
    pctAux (.val c) (List.replicate m (.val c))
      = List.replicate m (((PFloat.val c).div (.val c)).sub (.val 1)) := by
  induction m with
  | zero => rfl
  | succ m ih => rw [List.replicate_succ, pctAux, ih, List.replicate_succ]

/-- `calculate_returns` of a constant nonzero price series: `n - 1` zero
returns. -/
theorem returns_const (c : ℚ) (hc : c ≠ 0) (n : ℕ) :
    calculate_returns (List.replicate n (PFloat.val c))
      = List.replicate (n - 1) (PFloat.val 0) := by
  cases n with
  | zero => rfl
  | succ m =>
      unfold calculate_returns pct_change
      rw [List.replicate_succ]
      simp only [pctAux_replicate]
      have hdivc : ((PFloat.val c).div (.val c)).sub (.val 1) = PFloat.val 0 := by
        rw [show (PFloat.val c).div (.val c)
            = if c = 0 then (if 0 < c then PFloat.posInf
                else if c < 0 then PFloat.negInf else PFloat.nan)
              else PFloat.val (c / c) from rfl,
          if_neg hc, div_self hc]
        show PFloat.val (1 - 1) = _
        norm_num
      rw [hdivc]
      unfold dropna
      rw [List.filter_cons]
      have : (!PFloat.isNan .nan) = false := rfl
      rw [this]
      simp only [Bool.false_eq_true, if_false, filter_not_nan_replicate,
        Nat.add_sub_cancel]

/-- C6: for every return series whose sample standard deviation is exactly
zero, `calculate_sharpe_ratio` returns a non-finite sentinel (`±inf` or
NaN, exactly what numpy scalar division by zero produces) — never an
exception, since the embedding is a total function; and for a constant
nonzero price series (with at least two returns), `calculate_volatility` is
exactly 0.  `sq` is the real square root, assumed only to satisfy
`sqrt 0 = 0`. -/
theorem claim_C6 (sq : ℚ → ℚ) (rfr : ℚ) (hsq : sq 0 = 0) :
    (∀ returns : List PFloat, seriesStd sq returns = .val 0 →
       (calculate_sharpe_ratio sq rfr returns true).isFinite = false)
    ∧ (∀ (c : ℚ) (n : ℕ), c ≠ 0 → 3 ≤ n →
        calculate_volatility sq
          (calculate_returns (List.replicate n (PFloat.val c))) true
          = .val 0) := by
  constructor
  · intro returns hstd
    unfold calculate_sharpe_ratio
    rw [hstd]
    simp only [if_true]
    have h0 : (PFloat.val 0).mul (.val (sq 252)) = .val 0 := by
      show PFloat.val (0 * sq 252) = _
      rw [zero_mul]
    rw [h0]
    cases hm : ((seriesMean returns).mul (.val 252)).sub (.val rfr) with
    | val a =>
        show ((if (0:ℚ) = 0 then (if 0 < a then PFloat.posInf
            else if a < 0 then PFloat.negInf else PFloat.nan)
          else PFloat.val (a / 0))).isFinite = false
        rw [if_pos rfl]
        split_ifs <;> rfl
    | nan => rfl
    | posInf =>
        show ((if (0:ℚ) < 0 then PFloat.negInf else PFloat.posInf)).isFinite
          = false
        rw [if_neg (by norm_num)]
        rfl
    | negInf =>
        show ((if (0:ℚ) < 0 then PFloat.posInf else PFloat.negInf)).isFinite
          = false
        rw [if_neg (by norm_num)]
        rfl
  · intro c n hc h3
    rw [returns_const c hc n]
    unfold calculate_volatility
    simp only [if_true]
    rw [seriesStd_replicate_zero sq (n - 1) (by omega), hsq]
    show PFloat.val (0 * sq 252) = _
    rw [zero_mul]

/-- C6 (witness): the theorem applied with a concrete square-root function,
the zero-std return series `[0, 0]`, and the constant price series
`[1, 1, 1]`. -/
theorem claim_C6_witness :
    (calculate_sharpe_ratio (fun q => if q = 0 then 0 else 1) (1/25)
        [PFloat.val 0, PFloat.val 0] true).isFinite = false
    ∧ calculate_volatility (fun q => if q = 0 then 0 else 1)
        (calculate_returns (List.replicate 3 (PFloat.val 1))) true
        = .val 0 := by
  have h := claim_C6 (fun q => if q = 0 then 0 else 1) (1/25) (by norm_num)
  refine ⟨h.1 [PFloat.val 0, PFloat.val 0] ?_, h.2 1 3 (by norm_num) (by omega)⟩
  show seriesStd (fun q => if q = 0 then 0 else 1)
      (List.replicate 2 (PFloat.val 0)) = .val 0
  rw [seriesStd_replicate_zero (fun q => if q = 0 then 0 else 1) 2 (by omega)]
  norm_num

/-- Banker's rounding moves a rational by at most one half. -/
theorem pyRoundInt_bounds (q : ℚ) :
    q - 1/2 ≤ (pyRoundInt q : ℚ) ∧ (pyRoundInt q : ℚ) ≤ q + 1/2 := by
  have hf : ((⌊q⌋ : ℤ) : ℚ) ≤ q := Int.floor_le q
  have hf1 : q < (⌊q⌋ : ℚ) + 1 := Int.lt_floor_add_one q
  unfold pyRoundInt
  split_ifs with h1 h2 h3 <;> constructor <;> push_cast <;> linarith

/-- `round(q, 1)` of a nonnegative rational is nonnegative. -/
theorem pyRound1_nonneg (q : ℚ) (h : 0 ≤ q) : 0 ≤ pyRound1 q := by
  have hb := (pyRoundInt_bounds (q * 10)).1
  have hz : 0 ≤ pyRoundInt (q * 10) := by
    by_contra hneg
    push_neg at hneg
    have hle : pyRoundInt (q * 10) ≤ -1 := by omega
    have : (pyRoundInt (q * 10) : ℚ) ≤ -1 := by exact_mod_cast hle
    linarith
  unfold pyRound1
  exact div_nonneg (by exact_mod_cast hz) (by norm_num)

/-- `round(q, 1)` of a rational at most 10 is at most 10. -/
theorem pyRound1_le_ten (q : ℚ) (h : q ≤ 10) : pyRound1 q ≤ 10 := by
  have hb := (pyRoundInt_bounds (q * 10)).2
  have hz : pyRoundInt (q * 10) ≤ 100 := by
    by_contra hgt
    push_neg at hgt
    have hle : (101 : ℤ) ≤ pyRoundInt (q * 10) := by omega
    have : (101 : ℚ) ≤ (pyRoundInt (q * 10) : ℚ) := by exact_mod_cast hle
    linarith
  unfold pyRound1
  rw [div_le_iff₀ (by norm_num : (0:ℚ) < 10)]
  have : (pyRoundInt (q * 10) : ℚ) ≤ 100 := by exact_mod_cast hz
  linarith

/-- C7: whenever `analyze_diversification` returns a report, its score is
exactly `round(max(0, min(10, numHoldings*0.5 + numSectors*1.5) - (2 if
topPositionWeight > 0.40 else 0) - (1 if top3Weight > 0.70 else 0)), 1)`,
and consequently the score always lies in `[0, 10]`. -/
theorem claim_C7 (holdings : List (String × Holding)) (gp : String → Option ℚ)
    (gi : String → Option String) (r : DiversificationReport)
    (h : analyze_diversification holdings gp gi = .ok r) :
    r.diversification_score
      = pyRound1 (max 0 (min 10 ((r.num_holdings : ℚ) * (1/2)
          + (r.num_sectors : ℚ) * (3/2))
          - (if r.top_position_weight > 2/5 then 2 else 0)
          - (if r.top_3_weight > 7/10 then 1 else 0)))
    ∧ 0 ≤ r.diversification_score ∧ r.diversification_score ≤ 10 := by
  unfold analyze_diversification at h
  cases hv : calculate_portfolio_value holdings gp with
  | error e => rw [hv] at h; simp at h
  | ok pv =>
      rw [hv] at h
      dsimp only at h
      cases hs : sectorsOf pv.positions gi holdings with
      | error e => rw [hs] at h; simp at h
      | ok sectors =>
          rw [hs] at h
          dsimp only at h
          by_cases hcond : (pv.total_value = 0 ∧ ¬sectors.isEmpty = true)
          · rw [if_pos hcond] at h
            simp at h
          · rw [if_neg hcond] at h
            simp only [Except.ok.injEq] at h
            subst h
            refine ⟨?_, ?_, ?_⟩
            · simp only
              congr 1
              split_ifs <;> ring_nf
            · apply pyRound1_nonneg
              exact le_max_left 0 _
            · apply pyRound1_le_ten
              apply max_le (by norm_num)
              have hbase : min 10 ((holdings.length : ℚ) * (1/2)
                  + (sectors.length : ℚ) * (3/2)) ≤ 10 := min_le_left _ _
              split_ifs <;> linarith

/-- C7 (witness): the theorem applied to a concrete two-holding, one-sector
portfolio (both concentration penalties fire and the floor at 0 engages:
the report's score is exactly 0). -/
theorem claim_C7_witness :
    ∃ r, analyze_diversification
        [("A", { shares := 1, purchase_price := none }),
         ("B", { shares := 1, purchase_price := none })]
        (fun _ => some 10) (fun _ => some "Tech") = .ok r
      ∧ 0 ≤ r.diversification_score ∧ r.diversification_score ≤ 10 := by
  have hv : calculate_portfolio_value
      [("A", { shares := 1, purchase_price := none }),
       ("B", { shares := 1, purchase_price := none })] (fun _ => some 10)
      = .ok { total_value := 20,
              positions :=
                [("A", { shares := 1, current_price := 10, position_value := 10,
                         purchase_price := none, gain_loss := none,
                         gain_loss_pct := none, weight := 1/2 }),
                 ("B", { shares := 1, current_price := 10, position_value := 10,
                         purchase_price := none, gain_loss := none,
                         gain_loss_pct := none, weight := 1/2 })] } := by
    norm_num [calculate_portfolio_value, valuationStep, positionOf, pyTruthy]
  have hs : sectorsOf
      [("A", { shares := 1, current_price := 10, position_value := 10,
               purchase_price := none, gain_loss := none,
               gain_loss_pct := none, weight := 1/2 }),
       ("B", { shares := 1, current_price := 10, position_value := 10,
               purchase_price := none, gain_loss := none,
               gain_loss_pct := none, weight := 1/2 })]
      (fun _ => some "Tech")
      [("A", { shares := 1, purchase_price := none }),
       ("B", { shares := 1, purchase_price := none })]
      = .ok [("Tech", 20)] := by
    simp only [sectorsOf, sectorAdd, alookup, List.foldlM, Bind.bind,
      Except.bind, Pure.pure, Except.pure, List.find?, Option.isSome,
      String.reduceEq, decide_False, decide_True, reduceIte]
    norm_num
  have hok : analyze_diversification
      [("A", { shares := 1, purchase_price := none }),
       ("B", { shares := 1, purchase_price := none })]
      (fun _ => some 10) (fun _ => some "Tech")
      = .ok { num_holdings := 2, num_sectors := 1,
              sector_allocation := [("Tech", 1)],
              top_position_weight := 1/2, top_3_weight := 1,
              diversification_score := 0 } := by
    unfold analyze_diversification
    rw [hv]
    dsimp only
    rw [hs]
    dsimp only
    rw [if_neg (by norm_num)]
    norm_num [sortDesc, insertDesc, pyRound1, pyRoundInt, min_def, max_def]
  exact ⟨_, hok, (claim_C7 _ _ _ _ hok).2.1, (claim_C7 _ _ _ _ hok).2.2⟩

/-- C1: the claim is refuted by the code — the spec's exclusion policy is the
intent, but the loop body of `get_rebalancing_recommendations` subscripts
`portfolio_value['positions'][ticker]` unconditionally.  On the concrete
portfolio {AAPL: 10 sh, MSFT: 5 sh} in which AAPL's price resolves to 100
and MSFT's does not, the call raises `KeyError('MSFT')` instead of returning
a recommendation map that omits MSFT. -/
theorem claim_C1 :
    get_rebalancing_recommendations
        [("AAPL", { shares := 10, purchase_price := none }),
         ("MSFT", { shares := 5, purchase_price := none })]
        (fun t => if t = "AAPL" then some 100 else none) none
      = .error (.keyError "MSFT") := by
  have hv : calculate_portfolio_value
      [("AAPL", { shares := 10, purchase_price := none }),
       ("MSFT", { shares := 5, purchase_price := none })]
      (fun t => if t = "AAPL" then some 100 else none)
      = .ok { total_value := 1000,
              positions :=
                [("AAPL", { shares := 10, current_price := 100,
                            position_value := 1000, purchase_price := none,
                            gain_loss := none, gain_loss_pct := none,
                            weight := 1 })] } := by
    simp only [calculate_portfolio_value, valuationStep, positionOf, pyTruthy,
      String.reduceEq, reduceIte, List.foldl_cons, List.foldl_nil,
      Option.getD_some, Option.getD_none]
    norm_num
  unfold get_rebalancing_recommendations
  rw [hv]
  dsimp only
  simp only [List.foldlM, Bind.bind, Except.bind, Pure.pure, Except.pure,
    alookup, List.find?, Option.getD, String.reduceEq, decide_False,
    decide_True, reduceIte, List.map_cons, List.map_nil]
